import Mathlib

/-!
Verification development for the `any_ls` language server
(sources: `src/handlers/mod.rs`, `src/handlers/just.rs`, `src/handlers/props.rs`).

The external `lsp_types` data types are modelled at the repository's usage
boundary: positions/ranges as pairs of naturals (the `u32` fields never come
near overflow in the modelled code paths), severities as their numeric codes,
URIs and capability payloads as strings.
-/

deriving instance DecidableEq for Except

namespace AnyLs

/-! ## LSP data model (from `lsp_types` as used by the repository) -/

/-- `lsp_types::Position` (line, character are `u32`; modelled as `Nat`). -/
structure Position where
  line : Nat
  character : Nat
deriving DecidableEq, Repr

/-- `lsp_types::Range`. -/
structure Range where
  start : Position
  «end» : Position
deriving DecidableEq, Repr

/-- `lsp_types::DiagnosticSeverity`, a newtype over an integer code. -/
structure DiagnosticSeverity where
  code : Nat
deriving DecidableEq, Repr

def DiagnosticSeverity.ERROR : DiagnosticSeverity := ⟨1⟩

/-- `lsp_types::Diagnostic`, restricted to the fields the repository sets
(`Diagnostic::new_simple` plus the `severity` assignment). -/
structure Diagnostic where
  range : Range
  severity : Option DiagnosticSeverity
  message : String
deriving DecidableEq, Repr

/-- `Diagnostic::new_simple(range, message)`: all the other fields default. -/
def Diagnostic.new_simple (range : Range) (message : String) : Diagnostic :=
  { range := range, severity := none, message := message }

/-- `HandlerError` from `src/handlers/mod.rs` (URIs modelled as strings). -/
inductive HandlerError where
  | Log : String → HandlerError
  | NoSuchDocument : String → HandlerError
deriving DecidableEq, Repr

/-! ## `Just::parse_stderr` (`src/handlers/just.rs`)

The source matches stderr against the regex
`(\w+):\s(.*)\n.*——▶.*:(\d+):(\d+)` (crate `regex` via `lazy_regex`, which has
leftmost-first match semantics with greedy quantifiers).  The matcher below
embeds exactly this pattern.  `\w`/`\d`/`\s` are modelled by their ASCII
classes (the Unicode extensions of these classes play no role in the
repository's grammar, whose severity words, digits and separators are ASCII).

For this fixed pattern the backtracking search is deterministic:
* `(\w+):` can only match a maximal word-character run followed by `:`
  (shrinking the run would put a word character where `:` must be);
* `\s` consumes exactly one whitespace character (possibly the newline);
* `(.*)\n` must run to the next newline, since `.` cannot match `\n`;
* on the following line, `.*——▶` backtracks to an occurrence of the arrow and
  `.*:(\d+):(\d+)` backtracks to the rightmost position where `:` digits `:`
  digits matches; the digit captures are therefore those found at the
  rightmost feasible colon at or after the first arrow occurrence.
-/

/-- The `\w` class (ASCII): letters, digits, underscore. -/
def isWordChar (c : Char) : Bool := c.isAlphanum || c == '_'

/-- The `\d` class (ASCII digits). -/
def isDigitChar (c : Char) : Bool := c.isDigit

/-- Match `(\w+):\s(.*)\n` at the head of the text; return the severity word,
the message capture, and the rest of the text after the matched newline. -/
def matchSeverityAt (s : List Char) : Option (List Char × List Char × List Char) :=
  let w := s.takeWhile isWordChar
  if w.isEmpty then none
  else
    match s.drop w.length with
    | ':' :: c0 :: rest =>
      if c0.isWhitespace then
        let msg := rest.takeWhile (fun c => c ≠ '\n')
        match rest.drop msg.length with
        | '\n' :: after => some (w, msg, after)
        | _ => none
      else none
    | _ => none

/-- Find the first occurrence of the arrow marker `——▶` and return the suffix
after it. -/
def findArrowEnd : List Char → Option (List Char)
  | '—' :: '—' :: '▶' :: rest => some rest
  | _ :: rest => findArrowEnd rest
  | [] => none

/-- Try `:(\d+):(\d+)` at the head of the text, with both digit groups
greedy. -/
def feasibleAt (l : List Char) : Option (List Char × List Char) :=
  match l with
  | ':' :: rest =>
    let d1 := rest.takeWhile isDigitChar
    if d1.isEmpty then none
    else
      match rest.drop d1.length with
      | ':' :: rest2 =>
        let d2 := rest2.takeWhile isDigitChar
        if d2.isEmpty then none else some (d1, d2)
      | _ => none
  | _ => none

/-- Rightmost position at which `:(\d+):(\d+)` matches (the greedy `.*`
before it prefers the rightmost feasible start). -/
def rightmostFeasible : List Char → Option (List Char × List Char)
  | [] => none
  | c :: rest =>
    match rightmostFeasible rest with
    | some r => some r
    | none => feasibleAt (c :: rest)

/-- Match `.*——▶.*:(\d+):(\d+)` against one line, returning the line/column
digit captures. -/
def matchLocLine (line : List Char) : Option (List Char × List Char) :=
  match findArrowEnd line with
  | some rest => rightmostFeasible rest
  | none => none

/-- Match the whole pattern anchored at the head of the text: the severity
part, then the location part on the line immediately after the matched
newline. -/
def matchFullAt (s : List Char) : Option (List Char × List Char × List Char × List Char) :=
  match matchSeverityAt s with
  | some (w, msg, after) =>
    match matchLocLine (after.takeWhile (fun c => c ≠ '\n')) with
    | some (l, c) => some (w, msg, l, c)
    | none => none
  | none => none

/-- Leftmost match of the pattern anywhere in the text (regex search). -/
def findMatch : List Char → Option (List Char × List Char × List Char × List Char)
  | [] => none
  | c :: rest =>
    match matchFullAt (c :: rest) with
    | some r => some r
    | none => findMatch rest

/-- Numeric value of a digit-character list. -/
def digitsVal (l : List Char) : Nat :=
  l.foldl (fun acc c => acc * 10 + (c.toNat - '0'.toNat)) 0

/-- `str::parse::<u32>().unwrap_or(0)` on a nonempty all-digit capture:
the value when it fits in 32 bits, otherwise the fallback 0. -/
def parseU32 (l : List Char) : Nat :=
  if digitsVal l < 2 ^ 32 then digitsVal l else 0

/-- `parse_severity` from `src/handlers/just.rs`: `"error"` maps to `ERROR`,
anything else logs a warning and yields `None`. -/
def parse_severity (severity : String) : Option DiagnosticSeverity :=
  if severity = "error" then some DiagnosticSeverity.ERROR else none

/-- `Just::parse_stderr` from `src/handlers/just.rs`.  On a regex match,
build one diagnostic whose range is `(line-1, col-1)`–`(line-1, col)` with
saturating subtraction (`u32::saturating_sub` coincides with `Nat`
subtraction); otherwise log a parse-miss warning and return no
diagnostics. -/
def Just.parse_stderr (contents : String) : List Diagnostic :=
  match findMatch contents.data with
  | some (severity, message, lineDigits, colDigits) =>
    let line := parseU32 lineDigits
    let col := parseU32 colDigits
    let diag := Diagnostic.new_simple
      { start := ⟨line - 1, col - 1⟩, «end» := ⟨line - 1, col⟩ }
      (String.mk message)
    [{ diag with severity := parse_severity (String.mk severity) }]
  | none => []

/-- `Just::parse_stdout` from `src/handlers/just.rs`. -/
def Just.parse_stdout (_contents : String) : List Diagnostic := []

/-- `Just`'s `Handler::filetype_supported`. -/
def Just.filetype_supported (filetype : String) : Bool :=
  filetype = "just" || filetype = "justfile"

/-! ## `AnyHandler::update_diagnostics` (`src/handlers/mod.rs`)

A handler is modelled by its two trait methods used in the aggregation loop.
The vector `self.handlers` becomes a list of such models; the document lookup
that precedes the loop is not part of the aggregation claims. -/

/-- The `Handler` trait interface consumed by the aggregation loop. -/
structure HandlerM where
  filetype_supported : String → Bool
  update_diagnostics : String → Except HandlerError (List Diagnostic)

/-- The aggregation loop body of `AnyHandler::update_diagnostics`: walk the
handlers in registration order, skip those not supporting the document's
language id, append successful diagnostics in order and push failures in
order. -/
def collectResults (handlers : List HandlerM) (language_id content : String) :
    List Diagnostic × List HandlerError :=
  match handlers with
  | [] => ([], [])
  | handler :: rest =>
    let acc := collectResults rest language_id content
    if handler.filetype_supported language_id then
      match handler.update_diagnostics content with
      | .ok new_diags => (new_diags ++ acc.1, acc.2)
      | .error e => (acc.1, e :: acc.2)
    else acc

/-- `AnyHandler::update_diagnostics` after the document lookup: run the loop;
if the collected diagnostics list is empty and some error was recorded,
return the last error (`errors.pop()`); otherwise return the collected
diagnostics. -/
def AnyHandler.update_diagnostics (handlers : List HandlerM)
    (language_id content : String) : Except HandlerError (List Diagnostic) :=
  let acc := collectResults handlers language_id content
  if acc.1.isEmpty then
    match acc.2.getLast? with
    | some last => .error last
    | none => .ok acc.1
  else .ok acc.1

/-- Specification-side view: the per-provider results of the supported
handlers, in provider order. -/
def supportedResults (handlers : List HandlerM) (language_id content : String) :
    List (Except HandlerError (List Diagnostic)) :=
  (handlers.filter (fun h => h.filetype_supported language_id)).map
    (fun h => h.update_diagnostics content)

/-- Concatenation, in provider order, of the successful providers'
diagnostics. -/
def okDiags (results : List (Except HandlerError (List Diagnostic))) : List Diagnostic :=
  (results.filterMap (fun r => match r with | .ok ds => some ds | .error _ => none)).flatten

/-- The failures, in provider order. -/
def errList (results : List (Except HandlerError (List Diagnostic))) : List HandlerError :=
  results.filterMap (fun r => match r with | .ok _ => none | .error e => some e)

/-! ## `AnyHandler::get_capabilities` (`src/handlers/mod.rs`)

`lsp_types::ServerCapabilities` is modelled with the full field list that the
source's `set_capabilities!` macro enumerates.  The two fields whose values
the repository inspects keep structured models; the payloads of the remaining
fields are never inspected by the merge, so they are modelled as strings. -/

/-- `lsp_types::PositionEncodingKind`, a newtype over a string. -/
structure PositionEncodingKind where
  value : String
deriving DecidableEq, Repr

def PositionEncodingKind.UTF8 : PositionEncodingKind := ⟨"utf-8"⟩
def PositionEncodingKind.UTF16 : PositionEncodingKind := ⟨"utf-16"⟩
def PositionEncodingKind.UTF32 : PositionEncodingKind := ⟨"utf-32"⟩

/-- `lsp_types::TextDocumentSyncKind`, a newtype over an integer. -/
structure TextDocumentSyncKind where
  code : Nat
deriving DecidableEq, Repr

def TextDocumentSyncKind.NONE : TextDocumentSyncKind := ⟨0⟩
def TextDocumentSyncKind.FULL : TextDocumentSyncKind := ⟨1⟩
def TextDocumentSyncKind.INCREMENTAL : TextDocumentSyncKind := ⟨2⟩

/-- `lsp_types::TextDocumentSyncCapability` (the repository only constructs
and inspects the `Kind` variant; the merge never looks inside). -/
inductive TextDocumentSyncCapability where
  | Kind : TextDocumentSyncKind → TextDocumentSyncCapability
deriving DecidableEq, Repr

/-- `lsp_types::ServerCapabilities`, with exactly the fields enumerated by
the `set_capabilities!` calls in `AnyHandler::get_capabilities`.  Payload
types other than the two the repository inspects are modelled as strings. -/
structure ServerCapabilities where
  position_encoding : Option PositionEncodingKind := none
  text_document_sync : Option TextDocumentSyncCapability := none
  notebook_document_sync : Option String := none
  selection_range_provider : Option String := none
  hover_provider : Option String := none
  completion_provider : Option String := none
  signature_help_provider : Option String := none
  definition_provider : Option String := none
  type_definition_provider : Option String := none
  implementation_provider : Option String := none
  references_provider : Option String := none
  document_highlight_provider : Option String := none
  document_symbol_provider : Option String := none
  workspace_symbol_provider : Option String := none
  code_action_provider : Option String := none
  code_lens_provider : Option String := none
  document_formatting_provider : Option String := none
  document_range_formatting_provider : Option String := none
  document_on_type_formatting_provider : Option String := none
  rename_provider : Option String := none
  document_link_provider : Option String := none
  color_provider : Option String := none
  folding_range_provider : Option String := none
  declaration_provider : Option String := none
  execute_command_provider : Option String := none
  workspace : Option String := none
  call_hierarchy_provider : Option String := none
  semantic_tokens_provider : Option String := none
  moniker_provider : Option String := none
  linked_editing_range_provider : Option String := none
  inline_value_provider : Option String := none
  inlay_hint_provider : Option String := none
  diagnostic_provider : Option String := none
  experimental : Option String := none
deriving DecidableEq, Repr

/-- One `set_capabilities!` expansion:
`if let Some(v) = handler.f { capabilities.f.get_or_insert(v); }` —
keep the current value if present, otherwise take the handler's. -/
def mergeField {α : Type} : Option α → Option α → Option α
  | cur, none => cur
  | some c, some _ => some c
  | none, some v => some v

/-- The loop body of `AnyHandler::get_capabilities`: apply the 34
`set_capabilities!` lines for one handler's advertised capabilities. -/
def applyHandler (capabilities handler : ServerCapabilities) : ServerCapabilities :=
  { position_encoding := mergeField capabilities.position_encoding handler.position_encoding
    text_document_sync := mergeField capabilities.text_document_sync handler.text_document_sync
    notebook_document_sync := mergeField capabilities.notebook_document_sync handler.notebook_document_sync
    selection_range_provider := mergeField capabilities.selection_range_provider handler.selection_range_provider
    hover_provider := mergeField capabilities.hover_provider handler.hover_provider
    completion_provider := mergeField capabilities.completion_provider handler.completion_provider
    signature_help_provider := mergeField capabilities.signature_help_provider handler.signature_help_provider
    definition_provider := mergeField capabilities.definition_provider handler.definition_provider
    type_definition_provider := mergeField capabilities.type_definition_provider handler.type_definition_provider
    implementation_provider := mergeField capabilities.implementation_provider handler.implementation_provider
    references_provider := mergeField capabilities.references_provider handler.references_provider
    document_highlight_provider := mergeField capabilities.document_highlight_provider handler.document_highlight_provider
    document_symbol_provider := mergeField capabilities.document_symbol_provider handler.document_symbol_provider
    workspace_symbol_provider := mergeField capabilities.workspace_symbol_provider handler.workspace_symbol_provider
    code_action_provider := mergeField capabilities.code_action_provider handler.code_action_provider
    code_lens_provider := mergeField capabilities.code_lens_provider handler.code_lens_provider
    document_formatting_provider := mergeField capabilities.document_formatting_provider handler.document_formatting_provider
    document_range_formatting_provider := mergeField capabilities.document_range_formatting_provider handler.document_range_formatting_provider
    document_on_type_formatting_provider := mergeField capabilities.document_on_type_formatting_provider handler.document_on_type_formatting_provider
    rename_provider := mergeField capabilities.rename_provider handler.rename_provider
    document_link_provider := mergeField capabilities.document_link_provider handler.document_link_provider
    color_provider := mergeField capabilities.color_provider handler.color_provider
    folding_range_provider := mergeField capabilities.folding_range_provider handler.folding_range_provider
    declaration_provider := mergeField capabilities.declaration_provider handler.declaration_provider
    execute_command_provider := mergeField capabilities.execute_command_provider handler.execute_command_provider
    workspace := mergeField capabilities.workspace handler.workspace
    call_hierarchy_provider := mergeField capabilities.call_hierarchy_provider handler.call_hierarchy_provider
    semantic_tokens_provider := mergeField capabilities.semantic_tokens_provider handler.semantic_tokens_provider
    moniker_provider := mergeField capabilities.moniker_provider handler.moniker_provider
    linked_editing_range_provider := mergeField capabilities.linked_editing_range_provider handler.linked_editing_range_provider
    inline_value_provider := mergeField capabilities.inline_value_provider handler.inline_value_provider
    inlay_hint_provider := mergeField capabilities.inlay_hint_provider handler.inlay_hint_provider
    diagnostic_provider := mergeField capabilities.diagnostic_provider handler.diagnostic_provider
    experimental := mergeField capabilities.experimental handler.experimental }

/-- The initial capability set of `AnyHandler::get_capabilities`:
position encoding UTF-16 and incremental sync are set before the fold,
everything else defaults to absent. -/
def initCaps : ServerCapabilities :=
  { position_encoding := some PositionEncodingKind.UTF16
    text_document_sync := some (TextDocumentSyncCapability.Kind TextDocumentSyncKind.INCREMENTAL) }

/-- `AnyHandler::get_capabilities`, folding each registered handler's
advertised capability set over the initial one in registration order. -/
def AnyHandler.get_capabilities (handlers : List ServerCapabilities) : ServerCapabilities :=
  handlers.foldl applyHandler initCaps

/-! ## `PropsHandler` (`src/handlers/props.rs`)

Texts are modelled as `String`/`List Char`; byte offsets (the source slices
`&str` by byte index) are tracked through `Char.utf8Size` exactly as the
source accumulates `c.len_utf8()`. -/

/-- A `Definition` from `src/handlers/props.rs`. -/
structure Definition where
  from_path : String
  name : String
  value : String
deriving DecidableEq, Repr

/-- UTF-16 code units of one scalar value (`char::len_utf16`). -/
def lenUtf16 (c : Char) : Nat := if c.toNat < 0x10000 then 1 else 2

/-- The first loop of `PropsHandler::hover`: consume characters until
`cur_line` reaches the requested line (each `'\n'` closes a line), then
slice the text at the accumulated byte offset.  On a character list the
byte slice at that boundary is exactly the remaining characters. -/
def skipToTargetLine : List Char → Nat → List Char
  | l, 0 => l
  | [], _ + 1 => []
  | c :: rest, n + 1 =>
    if c = '\n' then skipToTargetLine rest n else skipToTargetLine rest (n + 1)

/-- The second loop of `PropsHandler::hover`: scan the slice, accumulating
the byte offset (`bytes_traversed`) and the UTF-16 column
(`num_chars_in_line`).  `first_valid` is the byte offset just past the last
non-token character seen before the target column; the loop stops at the
first non-token character at or past the target column.  Returns the final
`(first_valid, bytes_traversed)`. -/
def scanToken : List Char → Nat → Nat → Nat → Nat → Nat × Nat
  | [], _, first_valid, bytes_traversed, _ => (first_valid, bytes_traversed)
  | c :: rest, character, first_valid, bytes_traversed, num_chars_in_line =>
    if ¬(c.isAlphanum || c = '_') then
      if character ≤ num_chars_in_line then (first_valid, bytes_traversed)
      else
        scanToken rest character (bytes_traversed + c.utf8Size)
          (bytes_traversed + c.utf8Size) (num_chars_in_line + lenUtf16 c)
    else
      scanToken rest character first_valid (bytes_traversed + c.utf8Size)
        (num_chars_in_line + lenUtf16 c)

/-- Drop a byte prefix from a character list (the offsets used by the source
always sit on character boundaries). -/
def byteDrop : List Char → Nat → List Char
  | l, 0 => l
  | [], _ => []
  | c :: rest, n + 1 => byteDrop rest (n + 1 - c.utf8Size)

/-- Take a byte prefix of a character list. -/
def byteTake : List Char → Nat → List Char
  | _, 0 => []
  | [], _ => []
  | c :: rest, n + 1 =>
    if c.utf8Size ≤ n + 1 then c :: byteTake rest (n + 1 - c.utf8Size) else []

/-- `HashMap::get` on the association-list model of the definitions map
(the map is keyed uniquely; `mapPush` below keeps it so). -/
def mapGet (m : List (String × List Definition)) (k : String) : Option (List Definition) :=
  match m with
  | [] => none
  | (k', vs) :: rest => if k' = k then some vs else mapGet rest k

/-- `PropsHandler::hover`.  The `HashMap` of definitions is modelled as an
association list with unique keys; `get` is `mapGet`.  The source
always returns `Ok`: "no hover" is `Ok(None)`. -/
def PropsHandler.hover (definitions : List (String × List Definition))
    (contents : String) (position : Position) :
    Except HandlerError (Option String) :=
  let slice := skipToTargetLine contents.data position.line
  let scanned := scanToken slice position.character 0 0 0
  if scanned.1 ≥ scanned.2 ∨ scanned.2 ≤ position.character then
    .ok none
  else
    let name := String.mk (byteTake (byteDrop slice scanned.1) (scanned.2 - scanned.1))
    .ok ((mapGet definitions name).map (fun defs =>
      String.intercalate "\n\n"
        (defs.map (fun d => d.from_path ++ "\n" ++ d.name ++ " = " ++ d.value))))

/-- Split a character list at every `'\n'` (the segments do not keep the
separator; a trailing newline yields a trailing empty segment). -/
def splitNewlines : List Char → List (List Char)
  | [] => [[]]
  | '\n' :: rest => [] :: splitNewlines rest
  | c :: rest =>
    match splitNewlines rest with
    | seg :: segs => (c :: seg) :: segs
    | [] => [[c]]

/-- `str::lines`: split on `'\n'`, drop the trailing empty segment produced
by a final newline (the empty text has no lines at all), and strip one
trailing `'\r'` from each line. -/
def rustLines (s : String) : List String :=
  let parts := splitNewlines s.data
  let parts := if parts.getLast? = some [] then parts.dropLast else parts
  parts.map (fun l =>
    String.mk (if l.getLast? = some '\r' then l.dropLast else l))

/-- `str::trim` (whitespace modelled by the ASCII class the repository's
inputs use). -/
def rustTrim (s : String) : String :=
  String.mk
    (((s.data.dropWhile Char.isWhitespace).reverse.dropWhile Char.isWhitespace).reverse)

/-- `str::split_once(sep)`: split at the first occurrence of the separator,
returning the parts before and after it. -/
def splitOnce : List Char → Char → Option (List Char × List Char)
  | [], _ => none
  | c :: rest, sep =>
    if c = sep then some ([], rest)
    else
      match splitOnce rest sep with
      | some (a, b) => some (c :: a, b)
      | none => none

/-- `self.definitions.entry(name).or_default().push(def)`: append (never
replace) the definition under its key, on the association-list model of the
map. -/
def mapPush (m : List (String × List Definition)) (k : String) (v : Definition) :
    List (String × List Definition) :=
  match m with
  | [] => [(k, [v])]
  | (k', vs) :: rest =>
    if k' = k then (k', vs ++ [v]) :: rest else (k', vs) :: mapPush rest k v

/-- The per-line body of `PropsHandler::parse_files`: trim the line, skip it
when it has no `'='`, otherwise split at the first `'='`, trim both parts and
append the definition under the trimmed name. -/
def parseLine (path : String) (defs : List (String × List Definition))
    (line : String) : List (String × List Definition) :=
  let line := rustTrim line
  match splitOnce line.data '=' with
  | some (n, v) =>
    let name := rustTrim (String.mk n)
    mapPush defs name
      { from_path := path, name := name, value := rustTrim (String.mk v) }
  | none => defs

/-- `PropsHandler::parse_files`: the collected property files are modelled as
`(path, read result)` pairs (`read_to_string` errors are `none` and are
skipped); the definitions map is rebuilt from empty. -/
def PropsHandler.parse_files (files : List (String × Option String)) :
    List (String × List Definition) :=
  files.foldl
    (fun defs file =>
      match file.2 with
      | some contents => (rustLines contents).foldl (parseLine file.1) defs
      | none => defs)
    []

/-! ## `traverse_parents` (`src/handlers/props.rs`)

Directory paths are modelled as component lists with the innermost component
first: the filesystem root is `[]` and `Path::parent` drops the head (absent
for the root).  The filesystem is a function from a path to the result of
`read_dir`: `none` models an unreadable directory, and each entry is itself
an `Option` because `read_dir`'s iterator yields per-entry results that the
source's `.flatten()` skips when they are errors. -/

/-- A directory entry: its file name, and `entry.file_type().ok()` reduced to
the `is_file` bit the source consumes (`none` models a failed
`file_type()` call). -/
structure DirEntry where
  name : String
  is_file : Option Bool
deriving DecidableEq, Repr

/-- Whether the level contains a stop-marker name
(`stop_at_names.iter().any(|&name| name == file_name)`). -/
def level_stop (stop_at_names : List String) (entries : List DirEntry) : Bool :=
  entries.any (fun e => stop_at_names.contains e.name)

/-- The files collected at one level: entries that are not stop markers, are
files, and carry a recognized name; `entry.path()` is the entry's name joined
onto the directory. -/
def level_found (from_dir : List String) (stop_at_names file_names : List String)
    (entries : List DirEntry) : List (List String) :=
  entries.filterMap (fun e =>
    if stop_at_names.contains e.name then none
    else if e.is_file.getD false && file_names.contains e.name then
      some (e.name :: from_dir)
    else none)

/-- `traverse_parents` from `src/handlers/props.rs`: read the directory
(failure at the starting level is the call's error), scan its entries, and
unless a stop marker was seen recurse into the parent, silently dropping a
failed parent traversal. -/
def traverse_parents (fs : List String → Option (List (Option DirEntry))) :
    List String → List String → List String → Except Unit (List (List String))
  | from_dir, stop_at_names, file_names =>
    match fs from_dir with
    | none => .error ()
    | some raw =>
      let entries := raw.filterMap id
      let found := level_found from_dir stop_at_names file_names entries
      if level_stop stop_at_names entries then .ok found
      else
        match from_dir with
        | [] => .ok found
        | _ :: parent =>
          match traverse_parents fs parent stop_at_names file_names with
          | .ok parent_finds => .ok (found ++ parent_finds)
          | .error _ => .ok found

/-! ## Helper lemmas -/

theorem collectResults_eq (handlers : List HandlerM) (language_id content : String) :
    collectResults handlers language_id content =
      (okDiags (supportedResults handlers language_id content),
       errList (supportedResults handlers language_id content)) := by
  induction handlers with
  | nil => rfl
  | cons h t ih =>
    cases hsup : h.filetype_supported language_id with
    | false =>
      simp [collectResults, supportedResults, okDiags, errList, hsup, ih]
    | true =>
      cases hres : h.update_diagnostics content with
      | ok ds =>
        simp [collectResults, supportedResults, okDiags, errList, hsup, hres, ih]
      | error e =>
        simp [collectResults, supportedResults, okDiags, errList, hsup, hres, ih]

theorem fold_getter {α : Type} (g : ServerCapabilities → Option α)
    (hg : ∀ c h, g (applyHandler c h) = mergeField (g c) (g h)) :
    ∀ (hs : List ServerCapabilities) (init : ServerCapabilities),
      g (hs.foldl applyHandler init) = (hs.map g).foldl mergeField (g init) := by
  intro hs
  induction hs with
  | nil => intro init; rfl
  | cons h t ih =>
    intro init
    rw [List.foldl_cons, List.map_cons, List.foldl_cons, ih, hg]

theorem foldl_mergeField_some {α : Type} (v : α) (l : List (Option α)) :
    l.foldl mergeField (some v) = some v := by
  induction l with
  | nil => rfl
  | cons x t ih => cases x <;> simpa [mergeField] using ih

theorem foldl_mergeField_none {α : Type} (l : List (Option α)) :
    l.foldl mergeField none = l.findSome? id := by
  induction l with
  | nil => rfl
  | cons x t ih =>
    cases x with
    | none => simpa [mergeField, List.findSome?_cons] using ih
    | some a => simp [mergeField, List.findSome?_cons, foldl_mergeField_some]

theorem field_firstSome {α : Type} (g : ServerCapabilities → Option α)
    (hg : ∀ c h, g (applyHandler c h) = mergeField (g c) (g h))
    (hinit : g initCaps = none) (hs : List ServerCapabilities) :
    g (AnyHandler.get_capabilities hs) = (hs.map g).findSome? id := by
  have h := fold_getter g hg hs initCaps
  rw [AnyHandler.get_capabilities]
  rw [h, hinit, foldl_mergeField_none]

/-! ## Claims -/

def hOkEmpty : HandlerM := ⟨fun _ => true, fun _ => .ok []⟩
def hFail : HandlerM := ⟨fun _ => true, fun _ => .error (.Log "boom")⟩

/-- C1 counterexample: with a provider that succeeds with an empty list
followed by a provider that fails, the aggregation surfaces the failure even
though one provider returned successfully — refuting the claim that failures
are not surfaced whenever at least one provider succeeds (including with an
empty list). -/
theorem c1_aggregation_cex :
    hOkEmpty.filetype_supported "just" = true ∧
    hOkEmpty.update_diagnostics "x" = .ok [] ∧
    AnyHandler.update_diagnostics [hOkEmpty, hFail] "just" "x"
      = .error (HandlerError.Log "boom") ∧
    AnyHandler.update_diagnostics [hOkEmpty, hFail] "just" "x" ≠ .ok [] := by
  decide

/-- C1 (amended): the diagnostics aggregation over the supported providers in
provider order returns the concatenation, in provider order, of every
successful provider's diagnostics whenever that concatenation is nonempty or
no supported provider failed; when the concatenation is empty and at least
one failure occurred (even if some providers succeeded with empty lists), the
last failure encountered is returned and earlier failures are dropped. -/
theorem c1_aggregation (handlers : List HandlerM) (language_id content : String) :
    AnyHandler.update_diagnostics handlers language_id content =
      if (okDiags (supportedResults handlers language_id content)).isEmpty then
        match (errList (supportedResults handlers language_id content)).getLast? with
        | some e => .error e
        | none => .ok []
      else .ok (okDiags (supportedResults handlers language_id content)) := by
  have hcol := collectResults_eq handlers language_id content
  rw [AnyHandler.update_diagnostics, hcol]
  cases hE : (okDiags (supportedResults handlers language_id content)).isEmpty with
  | true =>
    have h0 : okDiags (supportedResults handlers language_id content) = [] := by
      simpa using hE
    simp [hE, h0]
  | false => simp [hE]

def capA : ServerCapabilities := { hover_provider := some "simple" }
def capB : ServerCapabilities :=
  { hover_provider := some "rich", completion_provider := some "basic" }
def capUTF8 : ServerCapabilities :=
  { position_encoding := some PositionEncodingKind.UTF8
    text_document_sync := some (TextDocumentSyncCapability.Kind TextDocumentSyncKind.FULL) }

/-- C2 counterexample: `position_encoding` is in the source's fixed field
list, a single registered provider advertising UTF-8 makes UTF-8 the first
non-absent value encountered in the fold, yet the merged set carries UTF-16:
the two force-initialized fields do not obey the first-non-absent rule.  The
same holds for `text_document_sync`. -/
theorem c2_capability_merge_cex :
    ([capUTF8].map (fun h => h.position_encoding)).findSome? id
      = some PositionEncodingKind.UTF8 ∧
    (AnyHandler.get_capabilities [capUTF8]).position_encoding
      = some PositionEncodingKind.UTF16 ∧
    PositionEncodingKind.UTF16 ≠ PositionEncodingKind.UTF8 ∧
    (AnyHandler.get_capabilities [capUTF8]).text_document_sync
      = some (TextDocumentSyncCapability.Kind TextDocumentSyncKind.INCREMENTAL) := by
  decide

/-- C2 (amended): for every capability field in the fixed field list other
than position-encoding and document-sync (which are force-initialized before
the fold and keep their forced values), the merged capability set assigns the
first non-absent value encountered when folding over providers in
registration order — hence a field once set is never overwritten by a later
provider; in particular with provider A `{hover: "simple"}` registered before
provider B `{hover: "rich", completion: "basic"}` the merged set has
hover `"simple"` and completion `"basic"`. -/
theorem c2_capability_merge (hs : List ServerCapabilities) :
    ((AnyHandler.get_capabilities hs).notebook_document_sync
        = (hs.map (fun h => h.notebook_document_sync)).findSome? id
      ∧ (AnyHandler.get_capabilities hs).selection_range_provider
        = (hs.map (fun h => h.selection_range_provider)).findSome? id
      ∧ (AnyHandler.get_capabilities hs).hover_provider
        = (hs.map (fun h => h.hover_provider)).findSome? id
      ∧ (AnyHandler.get_capabilities hs).completion_provider
        = (hs.map (fun h => h.completion_provider)).findSome? id
      ∧ (AnyHandler.get_capabilities hs).signature_help_provider
        = (hs.map (fun h => h.signature_help_provider)).findSome? id
      ∧ (AnyHandler.get_capabilities hs).definition_provider
        = (hs.map (fun h => h.definition_provider)).findSome? id
      ∧ (AnyHandler.get_capabilities hs).type_definition_provider
        = (hs.map (fun h => h.type_definition_provider)).findSome? id
      ∧ (AnyHandler.get_capabilities hs).implementation_provider
        = (hs.map (fun h => h.implementation_provider)).findSome? id
      ∧ (AnyHandler.get_capabilities hs).references_provider
        = (hs.map (fun h => h.references_provider)).findSome? id
      ∧ (AnyHandler.get_capabilities hs).document_highlight_provider
        = (hs.map (fun h => h.document_highlight_provider)).findSome? id
      ∧ (AnyHandler.get_capabilities hs).document_symbol_provider
        = (hs.map (fun h => h.document_symbol_provider)).findSome? id
      ∧ (AnyHandler.get_capabilities hs).workspace_symbol_provider
        = (hs.map (fun h => h.workspace_symbol_provider)).findSome? id
      ∧ (AnyHandler.get_capabilities hs).code_action_provider
        = (hs.map (fun h => h.code_action_provider)).findSome? id
      ∧ (AnyHandler.get_capabilities hs).code_lens_provider
        = (hs.map (fun h => h.code_lens_provider)).findSome? id
      ∧ (AnyHandler.get_capabilities hs).document_formatting_provider
        = (hs.map (fun h => h.document_formatting_provider)).findSome? id
      ∧ (AnyHandler.get_capabilities hs).document_range_formatting_provider
        = (hs.map (fun h => h.document_range_formatting_provider)).findSome? id
      ∧ (AnyHandler.get_capabilities hs).document_on_type_formatting_provider
        = (hs.map (fun h => h.document_on_type_formatting_provider)).findSome? id
      ∧ (AnyHandler.get_capabilities hs).rename_provider
        = (hs.map (fun h => h.rename_provider)).findSome? id
      ∧ (AnyHandler.get_capabilities hs).document_link_provider
        = (hs.map (fun h => h.document_link_provider)).findSome? id
      ∧ (AnyHandler.get_capabilities hs).color_provider
        = (hs.map (fun h => h.color_provider)).findSome? id
      ∧ (AnyHandler.get_capabilities hs).folding_range_provider
        = (hs.map (fun h => h.folding_range_provider)).findSome? id
      ∧ (AnyHandler.get_capabilities hs).declaration_provider
        = (hs.map (fun h => h.declaration_provider)).findSome? id
      ∧ (AnyHandler.get_capabilities hs).execute_command_provider
        = (hs.map (fun h => h.execute_command_provider)).findSome? id
      ∧ (AnyHandler.get_capabilities hs).workspace
        = (hs.map (fun h => h.workspace)).findSome? id
      ∧ (AnyHandler.get_capabilities hs).call_hierarchy_provider
        = (hs.map (fun h => h.call_hierarchy_provider)).findSome? id
      ∧ (AnyHandler.get_capabilities hs).semantic_tokens_provider
        = (hs.map (fun h => h.semantic_tokens_provider)).findSome? id
      ∧ (AnyHandler.get_capabilities hs).moniker_provider
        = (hs.map (fun h => h.moniker_provider)).findSome? id
      ∧ (AnyHandler.get_capabilities hs).linked_editing_range_provider
        = (hs.map (fun h => h.linked_editing_range_provider)).findSome? id
      ∧ (AnyHandler.get_capabilities hs).inline_value_provider
        = (hs.map (fun h => h.inline_value_provider)).findSome? id
      ∧ (AnyHandler.get_capabilities hs).inlay_hint_provider
        = (hs.map (fun h => h.inlay_hint_provider)).findSome? id
      ∧ (AnyHandler.get_capabilities hs).diagnostic_provider
        = (hs.map (fun h => h.diagnostic_provider)).findSome? id
      ∧ (AnyHandler.get_capabilities hs).experimental
        = (hs.map (fun h => h.experimental)).findSome? id) ∧
    (AnyHandler.get_capabilities [capA, capB]).hover_provider = some "simple" ∧
    (AnyHandler.get_capabilities [capA, capB]).completion_provider = some "basic" := by
  refine ⟨⟨?_, ?_, ?_, ?_, ?_, ?_, ?_, ?_, ?_, ?_, ?_, ?_, ?_, ?_, ?_, ?_, ?_,
    ?_, ?_, ?_, ?_, ?_, ?_, ?_, ?_, ?_, ?_, ?_, ?_, ?_, ?_, ?_⟩, by decide, by decide⟩
  · exact field_firstSome (fun c => c.notebook_document_sync) (fun _ _ => rfl) rfl hs
  · exact field_firstSome (fun c => c.selection_range_provider) (fun _ _ => rfl) rfl hs
  · exact field_firstSome (fun c => c.hover_provider) (fun _ _ => rfl) rfl hs
  · exact field_firstSome (fun c => c.completion_provider) (fun _ _ => rfl) rfl hs
  · exact field_firstSome (fun c => c.signature_help_provider) (fun _ _ => rfl) rfl hs
  · exact field_firstSome (fun c => c.definition_provider) (fun _ _ => rfl) rfl hs
  · exact field_firstSome (fun c => c.type_definition_provider) (fun _ _ => rfl) rfl hs
  · exact field_firstSome (fun c => c.implementation_provider) (fun _ _ => rfl) rfl hs
  · exact field_firstSome (fun c => c.references_provider) (fun _ _ => rfl) rfl hs
  · exact field_firstSome (fun c => c.document_highlight_provider) (fun _ _ => rfl) rfl hs
  · exact field_firstSome (fun c => c.document_symbol_provider) (fun _ _ => rfl) rfl hs
  · exact field_firstSome (fun c => c.workspace_symbol_provider) (fun _ _ => rfl) rfl hs
  · exact field_firstSome (fun c => c.code_action_provider) (fun _ _ => rfl) rfl hs
  · exact field_firstSome (fun c => c.code_lens_provider) (fun _ _ => rfl) rfl hs
  · exact field_firstSome (fun c => c.document_formatting_provider) (fun _ _ => rfl) rfl hs
  · exact field_firstSome (fun c => c.document_range_formatting_provider) (fun _ _ => rfl) rfl hs
  · exact field_firstSome (fun c => c.document_on_type_formatting_provider) (fun _ _ => rfl) rfl hs
  · exact field_firstSome (fun c => c.rename_provider) (fun _ _ => rfl) rfl hs
  · exact field_firstSome (fun c => c.document_link_provider) (fun _ _ => rfl) rfl hs
  · exact field_firstSome (fun c => c.color_provider) (fun _ _ => rfl) rfl hs
  · exact field_firstSome (fun c => c.folding_range_provider) (fun _ _ => rfl) rfl hs
  · exact field_firstSome (fun c => c.declaration_provider) (fun _ _ => rfl) rfl hs
  · exact field_firstSome (fun c => c.execute_command_provider) (fun _ _ => rfl) rfl hs
  · exact field_firstSome (fun c => c.workspace) (fun _ _ => rfl) rfl hs
  · exact field_firstSome (fun c => c.call_hierarchy_provider) (fun _ _ => rfl) rfl hs
  · exact field_firstSome (fun c => c.semantic_tokens_provider) (fun _ _ => rfl) rfl hs
  · exact field_firstSome (fun c => c.moniker_provider) (fun _ _ => rfl) rfl hs
  · exact field_firstSome (fun c => c.linked_editing_range_provider) (fun _ _ => rfl) rfl hs
  · exact field_firstSome (fun c => c.inline_value_provider) (fun _ _ => rfl) rfl hs
  · exact field_firstSome (fun c => c.inlay_hint_provider) (fun _ _ => rfl) rfl hs
  · exact field_firstSome (fun c => c.diagnostic_provider) (fun _ _ => rfl) rfl hs
  · exact field_firstSome (fun c => c.experimental) (fun _ _ => rfl) rfl hs

/-- C9: whatever capabilities the registered providers advertise, the merged
capability set always carries position-encoding UTF-16 and incremental
document sync; no provider input can change these two fields. -/
theorem c9_forced_fields (hs : List ServerCapabilities) :
    (AnyHandler.get_capabilities hs).position_encoding
      = some PositionEncodingKind.UTF16 ∧
    (AnyHandler.get_capabilities hs).text_document_sync
      = some (TextDocumentSyncCapability.Kind TextDocumentSyncKind.INCREMENTAL) := by
  constructor
  · have h := fold_getter (fun c => c.position_encoding) (fun _ _ => rfl) hs initCaps
    rw [AnyHandler.get_capabilities]
    exact h.trans (foldl_mergeField_some _ _)
  · have h := fold_getter (fun c => c.text_document_sync) (fun _ _ => rfl) hs initCaps
    rw [AnyHandler.get_capabilities]
    exact h.trans (foldl_mergeField_some _ _)

def c3Stderr : String :=
  "error: Unknown start of token:\n ——▶ justfile:7:13\n  │\n7 │   just something here\n  │             ^"

/-- C3 counterexample: a match whose captured line numeral does not fit in
32 bits (here 4294967296 = 2^32) is parsed with the `unwrap_or(0)` fallback,
so the produced range sits on line 0 rather than line L−1 = 4294967295 as the
claim's formula demands for every match. -/
theorem c3_parse_range_cex :
    findMatch "error: m\n——▶ f:4294967296:5".data
      = some ("error".data, "m".data, "4294967296".data, "5".data) ∧
    digitsVal "4294967296".data = 4294967296 ∧
    Just.parse_stderr "error: m\n——▶ f:4294967296:5"
      = [{ range := { start := ⟨0, 4⟩, «end» := ⟨0, 5⟩ },
           severity := some DiagnosticSeverity.ERROR, message := "m" }] ∧
    (0 : Nat) ≠ 4294967296 - 1 := by
  refine ⟨by decide, by decide, by decide, by decide⟩

/-- C3 (amended): for every stderr text on which the two-part pattern matches
with 1-based line L and column C, provided the captured L and C numerals are
at least 1 and fit in 32 bits (out-of-range captures fall back to 0, see
C10), `Just::parse_stderr` returns exactly one diagnostic with range
start = (L−1, C−1), end = (L−1, C) — a span of exactly one column — whose
severity is Error when the severity word is `"error"`; in particular the
claim's concrete example yields one Error diagnostic at (6, 12)–(6, 13). -/
theorem c3_parse_range (s : String) (w msg d1 d2 : List Char) (L C : Nat)
    (hm : findMatch s.data = some (w, msg, d1, d2))
    (hL : digitsVal d1 = L) (hC : digitsVal d2 = C)
    (_hL1 : 1 ≤ L) (hLu : L < 2 ^ 32) (hC1 : 1 ≤ C) (hCu : C < 2 ^ 32) :
    Just.parse_stderr s =
      [{ range := { start := ⟨L - 1, C - 1⟩, «end» := ⟨L - 1, C⟩ },
         severity := parse_severity (String.mk w),
         message := String.mk msg }] ∧
    (C - 1) + 1 = C ∧
    (String.mk w = "error" →
      parse_severity (String.mk w) = some DiagnosticSeverity.ERROR) ∧
    Just.parse_stderr c3Stderr =
      [{ range := { start := ⟨6, 12⟩, «end» := ⟨6, 13⟩ },
         severity := some DiagnosticSeverity.ERROR,
         message := "Unknown start of token:" }] := by
  refine ⟨?_, by omega, ?_, by decide⟩
  · have e1 : parseU32 d1 = L := by
      rw [parseU32, hL]
      exact if_pos hLu
    have e2 : parseU32 d2 = C := by
      rw [parseU32, hC]
      exact if_pos hCu
    rw [Just.parse_stderr, hm]
    simp [Diagnostic.new_simple, e1, e2]
  · intro hw
    rw [parse_severity, if_pos hw]

/-- Witness for C3: the amended theorem applied to the claim's concrete
example, whose captured line 7 and column 13 satisfy the bounds. -/
theorem c3_parse_range_witness :
    Just.parse_stderr c3Stderr =
      [{ range := { start := ⟨6, 12⟩, «end» := ⟨6, 13⟩ },
         severity := parse_severity "error",
         message := "Unknown start of token:" }] :=
  (c3_parse_range c3Stderr "error".data "Unknown start of token:".data
    "7".data "13".data 7 13 (by decide) (by decide) (by decide)
    (by decide) (by decide) (by decide) (by decide)).1

/-- C10: `Just::parse_stderr` is total and on every match produces exactly
one diagnostic whose coordinates come from the `unwrap_or(0)` /
`saturating_sub` pipeline: a captured numeral not fitting in a 32-bit
unsigned integer falls back to 0, the 1-based-to-0-based subtraction
saturates at 0, and for a captured column of value 0 (or an overflowing one)
the produced range is the zero-width (line−1, 0)–(line−1, 0), an edge case
where the advertised one-column span does not hold. -/
theorem c10_saturation (s : String) (w msg d1 d2 : List Char)
    (hm : findMatch s.data = some (w, msg, d1, d2)) :
    Just.parse_stderr s =
      [{ range := { start := ⟨parseU32 d1 - 1, parseU32 d2 - 1⟩,
                    «end» := ⟨parseU32 d1 - 1, parseU32 d2⟩ },
         severity := parse_severity (String.mk w),
         message := String.mk msg }] ∧
    (2 ^ 32 ≤ digitsVal d1 → parseU32 d1 = 0) ∧
    (2 ^ 32 ≤ digitsVal d2 ∨ digitsVal d2 = 0 →
      (Just.parse_stderr s).map (fun d => d.range) =
        [{ start := ⟨parseU32 d1 - 1, 0⟩, «end» := ⟨parseU32 d1 - 1, 0⟩ }]) := by
  have hmain : Just.parse_stderr s =
      [{ range := { start := ⟨parseU32 d1 - 1, parseU32 d2 - 1⟩,
                    «end» := ⟨parseU32 d1 - 1, parseU32 d2⟩ },
         severity := parse_severity (String.mk w),
         message := String.mk msg }] := by
    rw [Just.parse_stderr, hm]
    simp [Diagnostic.new_simple]
  refine ⟨hmain, ?_, ?_⟩
  · intro h
    rw [parseU32, if_neg (by omega)]
  · intro h
    have hz : parseU32 d2 = 0 := by
      rcases h with h | h
      · rw [parseU32, if_neg (by omega)]
      · rw [parseU32, h]
        exact if_pos (by norm_num)
    rw [hmain, hz]
    simp

/-- Witness for C10: a matched column of 0 in `f:7:0` produces the zero-width
range (6, 0)–(6, 0). -/
theorem c10_saturation_witness :
    (Just.parse_stderr "error: m\n——▶ f:7:0").map (fun d => d.range) =
      [{ start := ⟨6, 0⟩, «end» := ⟨6, 0⟩ }] :=
  (c10_saturation "error: m\n——▶ f:7:0" "error".data "m".data "7".data "0".data
    (by decide)).2.2 (Or.inr (by decide))

theorem findMatch_isSome_of_matchFullAt (l : List Char) (i : Nat)
    (h : (matchFullAt (l.drop i)).isSome = true) : (findMatch l).isSome = true := by
  induction l generalizing i with
  | nil =>
    rw [List.drop_nil] at h
    exact absurd h (by decide)
  | cons c rest ih =>
    rw [findMatch]
    cases hm : matchFullAt (c :: rest) with
    | some r => simp
    | none =>
      simp only []
      cases i with
      | zero =>
        rw [List.drop_zero] at h
        rw [hm] at h
        exact absurd h (by decide)
      | succ j => exact ih j (by simpa using h)

def c4Stderr : String := "error: msg\nfiller\n ——▶ f:3:4"

/-- C4 counterexample: a stderr text whose first line matches
`<severity-word>: <message-text>` and whose third line carries the location
marker — a later line, but not the one immediately following — is a parse
miss: `Just::parse_stderr` returns the empty list, refuting the claim that
any later marker line suffices. -/
theorem c4_two_part_cex :
    rustLines c4Stderr = ["error: msg", "filler", " ——▶ f:3:4"] ∧
    (matchSeverityAt c4Stderr.data).isSome = true ∧
    (matchLocLine " ——▶ f:3:4".data).isSome = true ∧
    Just.parse_stderr c4Stderr = [] := by
  refine ⟨by decide, by decide, by decide, by decide⟩

/-- C4 (amended): whenever, at some offset of the stderr text, the severity
part `<word>: <one whitespace><message up to a newline>` matches and the line
immediately following the matched newline contains the location marker
`——▶` followed (not necessarily adjacently) by `:<digits>:<digits>`,
`Just::parse_stderr` produces exactly one diagnostic. -/
theorem c4_two_part (s : String) (i : Nat)
    (h : (matchFullAt (s.data.drop i)).isSome = true) :
    (Just.parse_stderr s).length = 1 := by
  have hf := findMatch_isSome_of_matchFullAt s.data i h
  rw [Just.parse_stderr]
  cases hm : findMatch s.data with
  | some r =>
    obtain ⟨w, msg, d1, d2⟩ := r
    simp
  | none =>
    rw [hm] at hf
    exact absurd hf (by decide)

/-- Witness for C4: the amended theorem applied to a two-line stderr text
matching at offset 0. -/
theorem c4_two_part_witness :
    (Just.parse_stderr "error: msg\n ——▶ f:3:4").length = 1 :=
  c4_two_part "error: msg\n ——▶ f:3:4" 0 (by decide)

theorem findMatch_eq_none (l : List Char)
    (h : ∀ i, i < l.length → matchFullAt (l.drop i) = none) :
    findMatch l = none := by
  induction l with
  | nil => rfl
  | cons c rest ih =>
    rw [findMatch]
    have h0 : matchFullAt (c :: rest) = none := by
      simpa using h 0 (by simp)
    rw [h0]
    exact ih (fun i hi => by simpa using h (i + 1) (by simpa using hi))

/-- C5: when the two-part severity-then-location pattern matches at no offset
of the stderr text, `Just::parse_stderr` returns the empty diagnostic list —
it is a total function and an unparseable tool output never fails the
provider call; in particular a text with no arrow-marker line parses to the
empty list.  (Offsets at or beyond the text's length need no hypothesis: the
pattern never matches an empty suffix.) -/
theorem c5_parse_miss (s : String)
    (h : ∀ i, i < s.data.length → (matchFullAt (s.data.drop i)).isSome = false) :
    Just.parse_stderr s = [] ∧
    Just.parse_stderr "error: msg\nno arrow marker on this line" = [] := by
  refine ⟨?_, by decide⟩
  have h' : ∀ i, i < s.data.length → matchFullAt (s.data.drop i) = none := by
    intro i hi
    cases hm : matchFullAt (s.data.drop i) with
    | none => rfl
    | some v =>
      have := h i hi
      rw [hm] at this
      exact absurd this (by simp)
  rw [Just.parse_stderr, findMatch_eq_none s.data h']

/-- Witness for C5: the theorem applied to a concrete unparseable text. -/
theorem c5_parse_miss_witness :
    Just.parse_stderr "plain text" = [] ∧
    Just.parse_stderr "error: msg\nno arrow marker on this line" = [] :=
  c5_parse_miss "plain text" (by decide)

def exampleIndex : List (String × List Definition) :=
  [("FOO", [{ from_path := "f", name := "FOO", value := "1" }])]

/-- C6 counterexample: on the text `"FOO"` at column 1 the scan exhausts the
slice (the final byte offset equals the slice's total byte length), yet the
hover is produced — refuting the claim's "scanning exhausts the slice implies
no hover" disjunct. -/
theorem c6_hover_cex :
    scanToken "FOO".data 1 0 0 0 = (0, 3) ∧
    ("FOO".data.map Char.utf8Size).sum = 3 ∧
    PropsHandler.hover exampleIndex "FOO" ⟨0, 1⟩ = .ok (some "f\nFOO = 1") ∧
    PropsHandler.hover exampleIndex "FOO" ⟨0, 1⟩ ≠ .ok none := by
  refine ⟨by decide, by decide, by decide, by decide⟩

/-- C6 (amended): on `"FOO=1"` with the index mapping `"FOO"` to the single
definition `("f", "FOO", "1")`, hover at UTF-16 column 1 returns the text
`"f\nFOO = 1"` (source path, newline, name ` = ` value — containing both
`"f"` and `"FOO = 1"`), and hover at column 3 (on the `=`) returns no hover;
whenever the resolved token span is empty (`first_valid ≥ bytes_traversed`)
or the scan's final byte offset is at most the target column — in particular
when the target column was never reached within any token — the result is no
hover; and every hover call returns a success, never an error.  (Exhausting
the slice alone does not force "no hover": see the counterexample.) -/
theorem c6_hover :
    PropsHandler.hover exampleIndex "FOO=1" ⟨0, 1⟩ = .ok (some "f\nFOO = 1") ∧
    PropsHandler.hover exampleIndex "FOO=1" ⟨0, 3⟩ = .ok none ∧
    (∀ (defs : List (String × List Definition)) (contents : String) (position : Position),
      (scanToken (skipToTargetLine contents.data position.line) position.character 0 0 0).1
          ≥ (scanToken (skipToTargetLine contents.data position.line) position.character 0 0 0).2
        ∨ (scanToken (skipToTargetLine contents.data position.line) position.character 0 0 0).2
          ≤ position.character →
      PropsHandler.hover defs contents position = .ok none) ∧
    (∀ (defs : List (String × List Definition)) (contents : String) (position : Position),
      ∃ o, PropsHandler.hover defs contents position = .ok o) := by
  refine ⟨by decide, by decide, ?_, ?_⟩
  · intro defs contents position h
    simp only [PropsHandler.hover]
    rw [if_pos h]
  · intro defs contents position
    simp only [PropsHandler.hover]
    split
    · exact ⟨none, rfl⟩
    · exact ⟨_, rfl⟩

/-- Witness for C6: the no-hover branch of the amended theorem at a concrete
input whose scan ends with an empty token span. -/
theorem c6_hover_witness :
    PropsHandler.hover [] "" ⟨0, 0⟩ = .ok none :=
  c6_hover.2.2.1 [] "" ⟨0, 0⟩ (by decide)

theorem splitOnce_eq_none (l : List Char) (sep : Char) (h : sep ∉ l) :
    splitOnce l sep = none := by
  induction l with
  | nil => rfl
  | cons c rest ih =>
    have hcs : ¬(c = sep) := fun hc => h (by rw [← hc]; exact List.mem_cons_self c rest)
    rw [splitOnce]
    rw [if_neg hcs]
    rw [ih (fun hm => h (List.mem_cons_of_mem c hm))]

theorem splitOnce_eq_some (l : List Char) (sep : Char) :
    ∀ a b, splitOnce l sep = some (a, b) → l = a ++ sep :: b ∧ sep ∉ a := by
  induction l with
  | nil => intro a b h; exact absurd h (by simp [splitOnce])
  | cons c rest ih =>
    intro a b h
    rw [splitOnce] at h
    by_cases hc : c = sep
    · rw [if_pos hc] at h
      simp only [Option.some.injEq, Prod.mk.injEq] at h
      obtain ⟨ha, hb⟩ := h
      subst ha
      subst hb
      exact ⟨by simp [hc], by simp⟩
    · rw [if_neg hc] at h
      cases hs : splitOnce rest sep with
      | none => rw [hs] at h; exact absurd h (by simp)
      | some p =>
        obtain ⟨a', b'⟩ := p
        rw [hs] at h
        simp only [Option.some.injEq, Prod.mk.injEq] at h
        obtain ⟨ha, hb⟩ := h
        obtain ⟨hrest, hnotin⟩ := ih a' b' hs
        subst hb
        rw [← ha, hrest]
        refine ⟨rfl, ?_⟩
        intro hmem
        rcases List.mem_cons.mp hmem with hm | hm
        · exact hc hm.symm
        · exact hnotin hm

theorem mapGet_mapPush (m : List (String × List Definition)) (k : String) (v : Definition) :
    mapGet (mapPush m k v) k = some ((mapGet m k).getD [] ++ [v]) := by
  induction m with
  | nil => simp [mapPush, mapGet]
  | cons p rest ih =>
    obtain ⟨k', vs⟩ := p
    by_cases hk : k' = k
    · simp [mapPush, mapGet, hk]
    · simp [mapPush, mapGet, hk, ih]

theorem mapGet_mapPush_ne (m : List (String × List Definition)) (k k' : String)
    (v : Definition) (h : k' ≠ k) :
    mapGet (mapPush m k v) k' = mapGet m k' := by
  induction m with
  | nil =>
    have hne : ¬(k = k') := fun hk => h hk.symm
    simp [mapPush, mapGet, hne]
  | cons p rest ih =>
    obtain ⟨k'', vs⟩ := p
    simp only [mapPush]
    by_cases hk : k'' = k
    · rw [if_pos hk]
      have hne : ¬(k'' = k') := fun he => h (he.symm.trans hk)
      simp only [mapGet]
      rw [if_neg hne, if_neg hne]
    · rw [if_neg hk]
      simp only [mapGet]
      by_cases hkk : k'' = k'
      · rw [if_pos hkk, if_pos hkk]
      · rw [if_neg hkk, if_neg hkk]
        exact ih

/-- C7: `parse_files` trims each line, skips lines without a `=`, splits on
the first `=` (the part before the separator contains no `=`), trims both
parts, and appends — never replaces — the definition under its name, leaving
other names' entries untouched; in particular a file with lines `FOO=bar`
and `FOO = baz  ` yields exactly the two definitions for `"FOO"`, in file
order, with values `bar` and `baz`. -/
theorem c7_parse_files :
    mapGet (PropsHandler.parse_files [("p", some "FOO=bar\nFOO = baz  ")]) "FOO"
      = some [{ from_path := "p", name := "FOO", value := "bar" },
              { from_path := "p", name := "FOO", value := "baz" }] ∧
    (∀ (path : String) (defs : List (String × List Definition)) (line : String),
      '=' ∉ (rustTrim line).data → parseLine path defs line = defs) ∧
    (∀ (l a b : List Char), splitOnce l '=' = some (a, b) →
      l = a ++ '=' :: b ∧ '=' ∉ a) ∧
    (∀ m k v, mapGet (mapPush m k v) k = some ((mapGet m k).getD [] ++ [v])) ∧
    (∀ m k k' v, k' ≠ k → mapGet (mapPush m k v) k' = mapGet m k') := by
  refine ⟨by decide, ?_, ?_, ?_, ?_⟩
  · intro path defs line h
    simp only [parseLine]
    rw [splitOnce_eq_none _ _ h]
  · exact fun l a b h => splitOnce_eq_some l '=' a b h
  · exact mapGet_mapPush
  · exact fun m k k' v h => mapGet_mapPush_ne m k k' v h

/-- Witness for C7: the skip branch applied to a line without `=`. -/
theorem c7_parse_files_witness :
    parseLine "p" [] "no separator here" = [] :=
  c7_parse_files.2.1 "p" [] "no separator here" (by decide)

def mkEntry (n : String) (f : Bool) : Option DirEntry := some ⟨n, some f⟩

def exFs : List String → Option (List (Option DirEntry))
  | ["c", "b", "a"] => some [mkEntry ".env" true]
  | ["b", "a"] => some [mkEntry ".env.example" true]
  | ["a"] => some [some ⟨".git", some false⟩, mkEntry ".env" true]
  | [] => some [mkEntry ".env" true]
  | _ => none

def exFs2 : List String → Option (List (Option DirEntry))
  | ["c", "b", "a"] => some [mkEntry ".env" true]
  | _ => none

/-- C8: a level containing a stop-marker name is still scanned and its own
matching entries are returned, but recursion into the parent does not happen;
an unreadable parent directory contributes no files without aborting the
walk; and on the concrete filesystem `exFs` — where the start directory
`/a/b/c` lies two levels below the stop-marker directory `/a` (paths are
component lists, innermost first) — the walk returns the recognized files of
the start level, the intermediate level, and the stop-marker level itself,
and nothing from above the stop-marker level (the root's `.env` is
absent). -/
theorem c8_traverse :
    (∀ fs (d sa fn : List String) raw, fs d = some raw →
      level_stop sa (raw.filterMap id) = true →
      traverse_parents fs d sa fn = .ok (level_found d sa fn (raw.filterMap id))) ∧
    (∀ fs (x : String) (p sa fn : List String) raw, fs (x :: p) = some raw →
      level_stop sa (raw.filterMap id) = false → fs p = none →
      traverse_parents fs (x :: p) sa fn
        = .ok (level_found (x :: p) sa fn (raw.filterMap id))) ∧
    traverse_parents exFs ["c", "b", "a"] [".git"] [".env", ".env.example"]
      = .ok [[".env", "c", "b", "a"], [".env.example", "b", "a"], [".env", "a"]] ∧
    traverse_parents exFs2 ["c", "b", "a"] [".git"] [".env", ".env.example"]
      = .ok [[".env", "c", "b", "a"]] := by
  refine ⟨?_, ?_, by decide, by decide⟩
  · intro fs d sa fn raw hfs hstop
    rw [traverse_parents, hfs]
    simp [hstop]
  · intro fs x p sa fn raw hfs hstop hp
    have hrec : traverse_parents fs p sa fn = .error () := by
      rw [traverse_parents, hp]
    rw [traverse_parents, hfs]
    simp [hstop, hrec]

/-- Witness for C8: the stop-level branch of the theorem applied to the
concrete stop-marker directory, whose own `.env` is still collected. -/
theorem c8_traverse_witness :
    traverse_parents exFs ["a"] [".git"] [".env", ".env.example"]
      = .ok [[".env", "a"]] := by
  have h := c8_traverse.1 exFs ["a"] [".git"] [".env", ".env.example"]
    [some ⟨".git", some false⟩, mkEntry ".env" true] rfl (by decide)
  simpa using h

end AnyLs
